import Mathlib

/-!
Shallow embedding of the task-tracking console application in `App.py`
(class `Task`, class `StudyManager`, and the module-level validation
helpers).  Side effects that are out of scope for the verified core
(printing, prompting, the actual file system) are modelled explicitly:
wall-clock time is passed as a parameter, the JSON file becomes an
explicit input value, and each call to `_save_tasks` increments a
counter on the manager state.
-/

namespace App

deriving instance DecidableEq for Except

/-- Python's `str.lower()` restricted to ASCII, which covers every string
the program compares (the allowed priority/status enumerations). -/
def pyLower (s : String) : String := String.mk (s.data.map Char.toLower)

/-- Python's `str.strip()` with no argument: remove leading and
trailing whitespace. -/
def pyStrip (s : String) : String :=
  String.mk (((s.data.dropWhile Char.isWhitespace).reverse.dropWhile Char.isWhitespace).reverse)

/-- Python's `str.capitalize()`: first character uppercased, every other
character lowercased (ASCII range, as above). -/
def pyCapitalize (s : String) : String :=
  match s.data with
  | [] => ""
  | c :: cs => String.mk (Char.toUpper c :: cs.map Char.toLower)

/-- `ALLOWED_PRIORITIES` from App.py line 14 — note these are NOT
"High"/"Medium"/"Low". -/
def ALLOWED_PRIORITIES : List String :=
  ["Highest Priorities", "Medium Priorities", "Lowest Priorities"]

/-- `ALLOWED_STATUSES` from App.py line 17. -/
def ALLOWED_STATUSES : List String := ["Pending", "Completed"]

/-- `validate_priority` (App.py lines 374-376):
`priority_str.lower() in [p.lower() for p in ALLOWED_PRIORITIES]`. -/
def validate_priority (priority_str : String) : Bool :=
  (ALLOWED_PRIORITIES.map pyLower).contains (pyLower priority_str)

/-- `validate_status` (App.py lines 378-380). -/
def validate_status (status_str : String) : Bool :=
  (ALLOWED_STATUSES.map pyLower).contains (pyLower status_str)

/-- The `Task` object's attributes (App.py lines 52-58). -/
structure Task where
  id : Int
  title : String
  description : String
  due_date : String
  priority : String
  status : String
  created_at : String
deriving DecidableEq

/-- `Task.__init__` (App.py lines 32-58).  `now` is the string that
`datetime.now().strftime('%Y-%m-%d %H:%M:%S')` would produce at the
moment of construction; raising `ValueError` is modelled as
`Except.error`.  Note that the emptiness checks (`not title` etc.) are
on the raw strings, and stripping happens only afterwards when the
attributes are assigned. -/
def Task.init (now : String) (task_id : Int)
    (title description due_date priority status : String) : Except String Task :=
  if task_id ≤ 0 then
    Except.error "Task ID must be a positive integer."
  else if title = "" ∨ description = "" ∨ due_date = "" then
    Except.error "Title, description, and due date are required."
  else if validate_priority priority = false then
    Except.error "Invalid priority."
  else if validate_status status = false then
    Except.error "Invalid status."
  else
    Except.ok
      { id := task_id
        title := pyStrip title
        description := pyStrip description
        due_date := due_date
        priority := pyCapitalize priority
        status := pyCapitalize status
        created_at := now }

/-- A JSON object for one task: each of the seven keys is present
(`some`) or absent (`none`). -/
structure TaskRecord where
  id : Option Int
  title : Option String
  description : Option String
  due_date : Option String
  priority : Option String
  status : Option String
  created_at : Option String
deriving DecidableEq

/-- `Task.to_dict` (App.py lines 60-70). -/
def Task.to_dict (t : Task) : TaskRecord :=
  { id := some t.id
    title := some t.title
    description := some t.description
    due_date := some t.due_date
    priority := some t.priority
    status := some t.status
    created_at := some t.created_at }

/-- `Task.from_dict` (App.py lines 73-83).  A missing required key is a
`KeyError`, modelled as `Except.error`; `priority` and `status` fall
back to `"Medium"` / `"Pending"` via `.get`.  The stored `created_at`
key is never read: construction stamps the current time `now`. -/
def Task.from_dict (now : String) (task_dict : TaskRecord) : Except String Task :=
  match task_dict.id, task_dict.title, task_dict.description, task_dict.due_date with
  | some i, some ti, some de, some du =>
      Task.init now i ti de du
        (task_dict.priority.getD "Medium")
        (task_dict.status.getD "Pending")
  | _, _, _, _ => Except.error "KeyError: missing required field"

/-- Decidable check that an `Except` value is `ok`. -/
def except_is_ok {α : Type} : Except String α → Bool
  | Except.ok _ => true
  | Except.error _ => false

/-! ### Dates

`datetime.strptime(s, '%Y-%m-%d')` and datetime subtraction, embedded as
pure arithmetic on proleptic-Gregorian ordinals (the representation
CPython's `datetime` itself uses: `date(1, 1, 1).toordinal() == 1`). -/

def isLeapYear (y : Nat) : Bool :=
  (y % 4 == 0 && y % 100 != 0) || y % 400 == 0

def daysInMonth (y m : Nat) : Nat :=
  if m = 2 then (if isLeapYear y then 29 else 28)
  else if m = 4 || m = 6 || m = 9 || m = 11 then 30
  else 31

structure Ymd where
  year : Nat
  month : Nat
  day : Nat
deriving DecidableEq

/-- All characters are ASCII digits and the string is non-empty. -/
def allDigits (s : String) : Bool :=
  s.length > 0 && s.data.all Char.isDigit

/-- Split a character list at every `-`. -/
def splitDashAux : List Char → List Char → List (List Char)
  | [], acc => [acc.reverse]
  | c :: cs, acc =>
      if c = '-' then acc.reverse :: splitDashAux cs []
      else splitDashAux cs (c :: acc)

/-- `s.split('-')`, the field separation `strptime` performs on the
`%Y-%m-%d` format. -/
def splitOnDash (s : String) : List String :=
  (splitDashAux s.data []).map String.mk

/-- The numeric value of a digit string. -/
def digitsToNat (s : String) : Nat :=
  s.data.foldl (fun a c => a * 10 + (c.toNat - 48)) 0

/-- `datetime.strptime(s, '%Y-%m-%d')`, as a validator/parser: the year
field is 1-4 digits, month and day are 1-2 digits, separated by `-`,
and the values must form a real calendar date (year at least 1, day
within the month, Gregorian leap rule). -/
def parseYmd (s : String) : Option Ymd :=
  match splitOnDash s with
  | [ys, ms, ds] =>
    if allDigits ys && ys.length ≤ 4 && allDigits ms && ms.length ≤ 2
        && allDigits ds && ds.length ≤ 2 then
      if 1 ≤ digitsToNat ys && 1 ≤ digitsToNat ms && digitsToNat ms ≤ 12
          && 1 ≤ digitsToNat ds
          && digitsToNat ds ≤ daysInMonth (digitsToNat ys) (digitsToNat ms) then
        some ⟨digitsToNat ys, digitsToNat ms, digitsToNat ds⟩
      else none
    else none
  | _ => none

/-- Days in all years before year `y` (CPython `_days_before_year`). -/
def days_before_year (y : Nat) : Nat :=
  (y - 1) * 365 + (y - 1) / 4 - (y - 1) / 100 + (y - 1) / 400

/-- Days in year `y` preceding month `m` (CPython `_days_before_month`). -/
def days_before_month (y m : Nat) : Nat :=
  (List.range (m - 1)).foldl (fun acc i => acc + daysInMonth y (i + 1)) 0

/-- `date.toordinal()`: proleptic Gregorian ordinal, Jan 1 of year 1 is 1. -/
def toordinal (d : Ymd) : Nat :=
  days_before_year d.year + days_before_month d.year d.month + d.day

/-- `(due_date_obj - today).days` where `due_date_obj` is midnight of
the due date and `today` is the current instant (`now_ordinal` days,
`now_sec` seconds past midnight).  Python's `timedelta.days` is the
floor of the signed difference in days, hence `Int.fdiv`. -/
def days_left_of (due_ordinal now_ordinal now_sec : Nat) : Int :=
  Int.fdiv ((due_ordinal : Int) * 86400 - ((now_ordinal : Int) * 86400 + now_sec)) 86400

/-- The five due-status texts `Task.display` can print (App.py
lines 113-124). -/
inductive DueStat
  | overdue
  | dueToday
  | dueSoon
  | upcoming
  | completedMark
deriving DecidableEq

/-- The branch structure of App.py lines 114-124 on a computed
`days_left` value. -/
def due_status_text (status : String) (days_left : Int) : DueStat :=
  if status = "Pending" then
    if days_left < 0 then DueStat.overdue
    else if days_left = 0 then DueStat.dueToday
    else if days_left ≤ 3 then DueStat.dueSoon
    else DueStat.upcoming
  else DueStat.completedMark

/-- The due-status classification computed by `Task.display` (App.py
lines 104-124): parse `self.due_date`, subtract the current instant,
and classify; `none` models the `strptime` exception on an unparseable
stored date. -/
def Task.display_class (t : Task) (now_ordinal now_sec : Nat) : Option DueStat :=
  (parseYmd t.due_date).map
    (fun d => due_status_text t.status (days_left_of (toordinal d) now_ordinal now_sec))

/-! ### The manager (`StudyManager`)

The manager state is the pair of instance attributes `self.tasks` and
`self._next_id`, plus a counter of how many times `_save_tasks` has
been called (the observable effect of persisting; the actual file write
is out of scope). -/

structure MState where
  tasks : List Task
  next_id : Int
  save_count : Nat
deriving DecidableEq

/-- `StudyManager.__init__` before `_load_tasks` runs (App.py
lines 139-143): empty task list, `_next_id = 1`. -/
def initial_state : MState := ⟨[], 1, 0⟩

/-- `_save_tasks` (App.py lines 170-177): rewrites the whole file; here
only its observable count is tracked. -/
def _save_tasks (st : MState) : MState :=
  { st with save_count := st.save_count + 1 }

/-- The possible states of the backing JSON file as `_load_tasks` sees
them: absent, present but not valid JSON, or parsed into records. -/
inductive LoadInput
  | noFile
  | corruptFile
  | parsedFile (records : List TaskRecord)
deriving DecidableEq

/-- Which message path `_load_tasks` takes (App.py lines 146-167). -/
inductive LoadOutcome
  | loadedOk
  | corruptWarning
  | errorWarning
  | noFileNote
deriving DecidableEq

/-- The list comprehension `[Task.from_dict(d) for d in tasks_data]`
(App.py line 152): stops at the first record whose reconstruction
raises, in which case no task at all is produced. -/
def tasks_from_records (now : String) (records : List TaskRecord) :
    Except String (List Task) :=
  records.mapM (Task.from_dict now)

/-- `max(task.id for task in self.tasks)` for a non-empty list. -/
def max_task_id : List Task → Int
  | [] => 0
  | t :: ts => ts.foldl (fun a x => max a x.id) t.id

/-- `StudyManager._load_tasks` (App.py lines 146-167).  A `ValueError`
raised by `Task.from_dict` is caught by the generic
`except Exception` handler, which resets to an empty collection with
`_next_id = 1`; a JSON decode error is caught by the first handler the
same way.  Nothing escapes the method. -/
def _load_tasks (now : String) : LoadInput → MState × LoadOutcome
  | LoadInput.noFile => (initial_state, LoadOutcome.noFileNote)
  | LoadInput.corruptFile => (⟨[], 1, 0⟩, LoadOutcome.corruptWarning)
  | LoadInput.parsedFile records =>
    match tasks_from_records now records with
    | Except.ok ts =>
      if ts.isEmpty then (⟨ts, 1, 0⟩, LoadOutcome.loadedOk)
      else (⟨ts, max_task_id ts + 1, 0⟩, LoadOutcome.loadedOk)
    | Except.error _ => (⟨[], 1, 0⟩, LoadOutcome.errorWarning)

/-- The mutating core of `StudyManager.add_task` (App.py lines 192-200):
construct `Task(self._next_id, title, description, due_date,
priority=priority)` (status takes its default `"Pending"`), append,
increment `_next_id`, save; on `ValueError` nothing changes. -/
def add_task (st : MState) (now title description due_date priority : String) :
    MState × Except String Task :=
  match Task.init now st.next_id title description due_date priority "Pending" with
  | Except.ok t =>
      (_save_tasks { st with tasks := st.tasks ++ [t], next_id := st.next_id + 1 },
       Except.ok t)
  | Except.error e => (st, Except.error e)

/-- Result of `update_task_status` as observed by the user. -/
inductive UpdResult
  | notFound
  | alreadyStatus
  | updated
deriving DecidableEq

/-- In-place mutation of the first task with the given id, as done by
`task_to_update.status = new_status` on the object found by
`next(task for task in self.tasks if task.id == task_id)`. -/
def set_status_first : List Task → Int → String → List Task
  | [], _, _ => []
  | t :: ts, i, ns =>
      if t.id = i then { t with status := ns } :: ts
      else t :: set_status_first ts i ns

/-- The mutating core of `StudyManager.update_task_status` (App.py
lines 264-292): find the task, capitalize the entered status, no-op if
unchanged, otherwise mutate and save. -/
def update_task_status (st : MState) (task_id : Int) (new_status_str : String) :
    MState × UpdResult :=
  match st.tasks.find? (fun t => t.id == task_id) with
  | none => (st, UpdResult.notFound)
  | some t =>
    if t.status = pyCapitalize new_status_str then (st, UpdResult.alreadyStatus)
    else
      (_save_tasks
        { st with tasks := set_status_first st.tasks task_id (pyCapitalize new_status_str) },
       UpdResult.updated)

/-- The mutating core of `StudyManager.delete_task` (App.py
lines 307-328), on the confirmed ("yes") path: filter the id out and
save; an unknown id changes nothing. -/
def delete_task (st : MState) (task_id : Int) : MState × Bool :=
  match st.tasks.find? (fun t => t.id == task_id) with
  | none => (st, false)
  | some _ =>
      (_save_tasks { st with tasks := st.tasks.filter (fun t => !(t.id == task_id)) },
       true)

/-! ### Sorting (`view_tasks`)

Python's `sorted(xs, key=f)` is a stable sort; it is embedded as a
stable insertion sort parameterised by the key function. -/

/-- Stable insertion of `x` (originally positioned before every element
of the list) into a list sorted by `key`: `x` goes in front of the
first element whose key is not smaller. -/
def insert_by_key {α : Type} [LinearOrder α] (key : Task → α) (x : Task) :
    List Task → List Task
  | [] => [x]
  | y :: ys =>
      if key x ≤ key y then x :: y :: ys
      else y :: insert_by_key key x ys

/-- `sorted(l, key=key)`: stable sort ascending by `key`. -/
def sorted_by_key {α : Type} [LinearOrder α] (key : Task → α) : List Task → List Task
  | [] => []
  | x :: xs => insert_by_key key x (sorted_by_key key xs)

/-- `priority_order.get(t.priority, 99)` with
`priority_order = {"High": 1, "Medium": 2, "Low": 3}` (App.py
lines 239-240). -/
def priority_order (p : String) : Nat :=
  if p = "High" then 1
  else if p = "Medium" then 2
  else if p = "Low" then 3
  else 99

/-- Sort key for the `due_date` branch: `datetime.strptime(t.due_date,
'%Y-%m-%d')`, i.e. the date's ordinal.  The branch is only reached
with parseable dates (otherwise `strptime` raises, modelled by the
`none` result of `view_tasks`); the 0 fallback is dead under that
guard. -/
def due_key (t : Task) : Nat :=
  match parseYmd t.due_date with
  | some d => toordinal d
  | none => 0

/-- The `filtered_tasks` value of `StudyManager.view_tasks` (App.py
lines 221-223): filter on exact match with the capitalized status if a
filter is given. -/
def filtered_view (tasks : List Task) (filter_status : Option String) : List Task :=
  match filter_status with
  | some fs => tasks.filter (fun t => t.status == pyCapitalize fs)
  | none => tasks

/-- The filter-and-sort pipeline of `StudyManager.view_tasks` (App.py
lines 204-249), without the printing: filter by capitalized status if
given, then sort per `sort_by`.  `none` models the `strptime`
exception raised while sorting by due date if some date does not
parse. -/
def view_tasks (tasks : List Task) (filter_status : Option String)
    (sort_by : String) : Option (List Task) :=
  if sort_by = "due_date" then
    if ((filtered_view tasks filter_status).filter (fun t => t.status == "Pending")
        ++ (filtered_view tasks filter_status).filter (fun t => t.status == "Completed")).all
        (fun t => (parseYmd t.due_date).isSome) then
      some (sorted_by_key due_key
              ((filtered_view tasks filter_status).filter (fun t => t.status == "Pending"))
            ++ sorted_by_key due_key
              ((filtered_view tasks filter_status).filter (fun t => t.status == "Completed")))
    else none
  else if sort_by = "priority" then
    some (sorted_by_key (fun t => priority_order t.priority) (filtered_view tasks filter_status))
  else if sort_by = "title" then
    some (sorted_by_key (fun t => pyLower t.title) (filtered_view tasks filter_status))
  else some (filtered_view tasks filter_status)

/-! ### Operation sequences (for the id-assignment claims) -/

/-- The field values a user supplies for one `add_task` call. -/
structure AddPayload where
  now : String
  title : String
  description : String
  due_date : String
  priority : String
deriving DecidableEq

/-- The payload passes every `Task.__init__` check that does not depend
on the id: required fields non-empty and priority in the allowed
enumeration (the status is the constant `"Pending"`, which is always
allowed). -/
def valid_payload (v : AddPayload) : Bool :=
  v.title != "" && v.description != "" && v.due_date != "" && validate_priority v.priority

/-- A mutating operation on the collection. -/
inductive Op
  | addOp (v : AddPayload)
  | delOp (task_id : Int)
deriving DecidableEq

def run_op (st : MState) : Op → MState
  | Op.addOp v => (add_task st v.now v.title v.description v.due_date v.priority).1
  | Op.delOp i => (delete_task st i).1

def run_ops (st : MState) (ops : List Op) : MState := ops.foldl run_op st

/-- The list of ids `a, a+1, ..., a+n-1`. -/
def id_range (a : Int) : Nat → List Int
  | 0 => []
  | n + 1 => a :: id_range (a + 1) n

/-- The three canonical priority strings of the rank map in
`view_tasks` — used to state which priorities the sort recognizes. -/
def recognized_priority (p : String) : Bool :=
  p == "High" || p == "Medium" || p == "Low"

/-! ### Helper lemmas about the stable sort -/

theorem perm_insert_by_key {α : Type} [LinearOrder α] (key : Task → α) (x : Task) :
    ∀ l : List Task, List.Perm (insert_by_key key x l) (x :: l)
  | [] => List.Perm.refl _
  | y :: ys => by
      unfold insert_by_key
      split
      · exact List.Perm.refl _
      · exact List.Perm.trans (List.Perm.cons y (perm_insert_by_key key x ys))
          (List.Perm.swap x y ys)

theorem mem_insert_by_key {α : Type} [LinearOrder α] (key : Task → α)
    {x a : Task} {l : List Task} :
    a ∈ insert_by_key key x l ↔ a = x ∨ a ∈ l := by
  rw [(perm_insert_by_key key x l).mem_iff]
  simp

theorem perm_sorted_by_key {α : Type} [LinearOrder α] (key : Task → α) :
    ∀ l : List Task, List.Perm (sorted_by_key key l) l
  | [] => List.Perm.refl _
  | x :: xs =>
      List.Perm.trans (perm_insert_by_key key x (sorted_by_key key xs))
        (List.Perm.cons x (perm_sorted_by_key key xs))

theorem pairwise_insert_by_key {α : Type} [LinearOrder α] (key : Task → α)
    {x : Task} {l : List Task}
    (h : List.Pairwise (fun a b => key a ≤ key b) l) :
    List.Pairwise (fun a b => key a ≤ key b) (insert_by_key key x l) := by
  induction l with
  | nil => simp [insert_by_key]
  | cons y ys ih =>
    rw [List.pairwise_cons] at h
    unfold insert_by_key
    split
    case isTrue hle =>
      refine List.Pairwise.cons ?_ (List.Pairwise.cons h.1 h.2)
      intro b hb
      rcases List.mem_cons.mp hb with rfl | hb
      · exact hle
      · exact le_trans hle (h.1 b hb)
    case isFalse hnle =>
      refine List.Pairwise.cons ?_ (ih h.2)
      intro b hb
      rcases (mem_insert_by_key key).mp hb with rfl | hb
      · exact le_of_lt (not_le.mp hnle)
      · exact h.1 b hb

theorem sorted_sorted_by_key {α : Type} [LinearOrder α] (key : Task → α) :
    ∀ l : List Task, List.Pairwise (fun a b => key a ≤ key b) (sorted_by_key key l)
  | [] => by simp [sorted_by_key]
  | x :: xs => pairwise_insert_by_key key (sorted_sorted_by_key key xs)

theorem filter_insert_by_key {α : Type} [LinearOrder α] (key : Task → α)
    (c : α) (x : Task) :
    ∀ l : List Task,
    (insert_by_key key x l).filter (fun t => key t == c)
      = if key x = c then x :: l.filter (fun t => key t == c)
        else l.filter (fun t => key t == c) := by
  intro l
  induction l with
  | nil => by_cases h : key x = c <;> simp [insert_by_key, h]
  | cons y ys ih =>
    unfold insert_by_key
    split
    case isTrue hle =>
      by_cases h : key x = c <;> simp [List.filter_cons, h]
    case isFalse hnle =>
      have hyx : key y < key x := not_le.mp hnle
      by_cases hx : key x = c
      · have hy : ¬(key y = c) := by
          rw [← hx]
          exact ne_of_lt hyx
        simp [List.filter_cons, hx, hy, ih]
      · by_cases hy : key y = c <;> simp [List.filter_cons, hx, hy, ih]

theorem filter_sorted_by_key {α : Type} [LinearOrder α] (key : Task → α) (c : α) :
    ∀ l : List Task,
    (sorted_by_key key l).filter (fun t => key t == c) = l.filter (fun t => key t == c)
  | [] => rfl
  | x :: xs => by
      rw [sorted_by_key, filter_insert_by_key key c x (sorted_by_key key xs),
        filter_sorted_by_key key c xs]
      by_cases h : key x = c <;> simp [List.filter_cons, h]

/-! ### Other helper lemmas -/

theorem priority_order_le (p : String) : priority_order p ≤ 99 := by
  unfold priority_order
  split
  · omega
  · split
    · omega
    · split <;> omega

/-- A list sorted ascending by priority rank splits into the tasks with
a recognized rank followed by the rank-99 tasks. -/
theorem pairwise_rank_split :
    ∀ l : List Task,
    List.Pairwise (fun a b => priority_order a.priority ≤ priority_order b.priority) l →
    ∃ a b, l = a ++ b ∧ (∀ t ∈ a, priority_order t.priority ≠ 99)
      ∧ (∀ t ∈ b, priority_order t.priority = 99) := by
  intro l
  induction l with
  | nil => exact fun _ => ⟨[], [], rfl, by simp, by simp⟩
  | cons x xs ih =>
    intro h
    rw [List.pairwise_cons] at h
    by_cases hx : priority_order x.priority = 99
    · refine ⟨[], x :: xs, rfl, by simp, ?_⟩
      intro t ht
      rcases List.mem_cons.mp ht with rfl | ht
      · exact hx
      · have h1 := h.1 t ht
        have h2 := priority_order_le t.priority
        omega
    · obtain ⟨a, b, heq, ha, hb⟩ := ih h.2
      refine ⟨x :: a, b, by simp [heq], ?_, hb⟩
      intro t ht
      rcases List.mem_cons.mp ht with rfl | ht
      · exact hx
      · exact ha t ht

/-- Pointwise: the rank-99 test is the complement of the recognized
test. -/
theorem rank99_iff_not_recognized (p : String) :
    (priority_order p == 99) = !(recognized_priority p) := by
  unfold priority_order recognized_priority
  by_cases h1 : p = "High" <;> by_cases h2 : p = "Medium" <;> by_cases h3 : p = "Low" <;>
    simp [h1, h2, h3]

/-- Under the Pending/Completed dichotomy, the two status filters
partition the list. -/
theorem length_filter_partition :
    ∀ ts : List Task, (∀ t ∈ ts, t.status = "Pending" ∨ t.status = "Completed") →
    (ts.filter (fun t => t.status == "Pending")).length
      + (ts.filter (fun t => t.status == "Completed")).length = ts.length := by
  intro ts
  induction ts with
  | nil => intro _; simp
  | cons t ts ih =>
    intro h
    have ht := h t (List.mem_cons_self t ts)
    have ih' := ih (fun x hx => h x (List.mem_cons_of_mem t hx))
    rcases ht with h1 | h1 <;> simp [List.filter_cons, h1] <;> omega

/-- `find?` returning `some a` decomposes the list around the first
match. -/
theorem find?_decomp {p : Task → Bool} :
    ∀ {l : List Task} {a : Task}, l.find? p = some a →
    ∃ s u, l = s ++ a :: u ∧ (∀ x ∈ s, p x = false) ∧ p a = true := by
  intro l
  induction l with
  | nil => intro a h; simp [List.find?] at h
  | cons y ys ih =>
    intro a h
    cases hy : p y with
    | true =>
      rw [List.find?_cons_of_pos _ hy] at h
      cases h
      exact ⟨[], ys, rfl, by simp, hy⟩
    | false =>
      rw [List.find?_cons_of_neg _ (by simp [hy])] at h
      obtain ⟨s, u, heq, hs, ha⟩ := ih h
      refine ⟨y :: s, u, by simp [heq], ?_, ha⟩
      intro x hx
      rcases List.mem_cons.mp hx with rfl | hx
      · exact hy
      · exact hs x hx

/-- `set_status_first` rewrites exactly the first task whose id
matches. -/
theorem set_status_first_append {i : Int} {ns : String} {a : Task} (ha : a.id = i) :
    ∀ (s u : List Task), (∀ x ∈ s, ¬(x.id = i)) →
    set_status_first (s ++ a :: u) i ns = s ++ { a with status := ns } :: u := by
  intro s
  induction s with
  | nil => intro u _; simp [set_status_first, ha]
  | cons y ys ih =>
    intro u hs
    have hy : ¬(y.id = i) := hs y (List.mem_cons_self y ys)
    have ih' := ih u (fun x hx => hs x (List.mem_cons_of_mem y hx))
    simp [set_status_first, hy, ih']

/-- The fields of a successfully constructed task, and the facts the
construction checked. -/
theorem task_init_ok {now : String} {i : Int} {ti de du pr stt : String} {t : Task}
    (h : Task.init now i ti de du pr stt = Except.ok t) :
    t.id = i ∧ t.title = pyStrip ti ∧ t.description = pyStrip de ∧ t.due_date = du
    ∧ t.priority = pyCapitalize pr ∧ t.status = pyCapitalize stt ∧ t.created_at = now
    ∧ ¬(i ≤ 0) ∧ ti ≠ "" ∧ de ≠ "" ∧ du ≠ ""
    ∧ validate_priority pr = true ∧ validate_status stt = true := by
  unfold Task.init at h
  split at h
  · exact absurd h (by simp)
  split at h
  · exact absurd h (by simp)
  split at h
  · exact absurd h (by simp)
  split at h
  · exact absurd h (by simp)
  next h1 h2 h3 h4 =>
    cases h
    push_neg at h2
    refine ⟨rfl, rfl, rfl, rfl, rfl, rfl, rfl, h1, h2.1, h2.2.1, h2.2.2, ?_, ?_⟩
    · exact Bool.not_eq_false _ |>.mp h3 |>.symm ▸ rfl
    · exact Bool.not_eq_false _ |>.mp h4 |>.symm ▸ rfl

/-! ### Concrete sample values used by the claim theorems -/

/-- A task as this program actually stores it: the only priorities that
survive validation are the capitalizations of `ALLOWED_PRIORITIES`. -/
def sample_task : Task :=
  ⟨1, "Essay", "Write the essay", "2025-03-01", "Highest priorities", "Pending",
    "2025-01-01 08:00:00"⟩

def pending_due_jan10 : Task :=
  ⟨1, "Essay", "Write the essay", "2025-01-10", "Highest priorities", "Pending",
    "2025-01-01 08:00:00"⟩

def pending_due_jan14 : Task := { pending_due_jan10 with due_date := "2025-01-14" }

def completed_due_jan10 : Task := { pending_due_jan10 with status := "Completed" }

/-- A record that reconstructs successfully. -/
def good_record : TaskRecord := Task.to_dict sample_task

/-- A record whose reconstruction raises: `"High"` is not in this
program's `ALLOWED_PRIORITIES`. -/
def bad_record : TaskRecord :=
  ⟨some 2, some "Quiz", some "Study", some "2025-01-05", some "High", some "Pending",
    some "2025-01-02 08:00:00"⟩

/-! ### C1 -/

/-- C1: the claim says construction accepts a priority exactly when it
is case-insensitively one of High/Medium/Low.  The code's
`ALLOWED_PRIORITIES` are "Highest Priorities"/"Medium Priorities"/
"Lowest Priorities", so "High", "Medium" and "Low" — including the
constructor's own documented default "Medium" — are all rejected, while
"highest priorities" is accepted.  The status half of the claim does
hold.  This theorem evaluates the code at those inputs. -/
theorem c1_priority_enumeration_code_bug :
    validate_priority "High" = false
    ∧ validate_priority "Medium" = false
    ∧ validate_priority "Low" = false
    ∧ validate_priority "high" = false
    ∧ validate_priority "highest priorities" = true
    ∧ validate_priority "MEDIUM PRIORITIES" = true
    ∧ except_is_ok
        (Task.init "2025-01-01 08:00:00" 1 "Essay" "Write" "2025-03-01" "High" "Pending")
      = false
    ∧ except_is_ok
        (Task.init "2025-01-01 08:00:00" 1 "Essay" "Write" "2025-03-01" "Medium" "Pending")
      = false
    ∧ validate_status "Pending" = true
    ∧ validate_status "completed" = true
    ∧ validate_status "PENDING" = true
    ∧ validate_status "Done" = false
    ∧ validate_status "" = false := by
  decide

/-! ### C2 -/

/-- C2: the claim says `reconstruct(serialize(t))` equals `t` in all
seven attributes, with `created_at` taken from the record, and that a
record missing `priority`/`status` defaults to Medium/Pending.  The
code's `from_dict` never reads the stored `created_at` — it restamps
the reconstruction-time clock — so the round trip loses `created_at`;
and the "Medium" default is itself rejected by `validate_priority`
(see C1), so a record missing `priority` raises instead of
defaulting.  This theorem evaluates the code on a serialized valid
task, reconstructed at a later wall-clock time. -/
theorem c2_roundtrip_code_bug :
    Task.from_dict "2025-06-01 12:00:00" (Task.to_dict sample_task)
      = Except.ok { sample_task with created_at := "2025-06-01 12:00:00" }
    ∧ ({ sample_task with created_at := "2025-06-01 12:00:00" } : Task) ≠ sample_task
    ∧ except_is_ok
        (Task.from_dict "2025-06-01 12:00:00" { Task.to_dict sample_task with priority := none })
      = false
    ∧ Task.from_dict "2025-06-01 12:00:00" { Task.to_dict sample_task with status := none }
      = Except.ok { sample_task with created_at := "2025-06-01 12:00:00" } := by
  decide

/-! ### C3 -/

/-- C3: the claim says the classification is a function of the integer
day-difference between `due_date` and today's date: Due-today at 0,
Due-soon at 1..3, Upcoming above 3.  The code subtracts the current
instant (including time of day) from midnight of the due date and
takes `timedelta.days`, which floors; so at 2025-01-10 12:00:00 a
Pending task due 2025-01-10 (day-difference 0) prints OVERDUE, and one
due 2025-01-14 (day-difference 4) prints the days-left ("Due-soon")
text.  Only at exactly midnight does the code match the claim; the
Completed half of the claim does hold. -/
theorem c3_display_classification_code_bug :
    Task.display_class pending_due_jan10 (toordinal ⟨2025, 1, 10⟩) 43200
      = some DueStat.overdue
    ∧ Task.display_class pending_due_jan14 (toordinal ⟨2025, 1, 10⟩) 43200
      = some DueStat.dueSoon
    ∧ Task.display_class pending_due_jan10 (toordinal ⟨2025, 1, 10⟩) 0
      = some DueStat.dueToday
    ∧ Task.display_class pending_due_jan14 (toordinal ⟨2025, 1, 10⟩) 0
      = some DueStat.upcoming
    ∧ Task.display_class completed_due_jan10 (toordinal ⟨2025, 1, 10⟩) 43200
      = some DueStat.completedMark
    ∧ Task.display_class completed_due_jan10 (toordinal ⟨2025, 1, 1⟩) 0
      = some DueStat.completedMark := by
  decide

/-! ### C4 -/

/-- C4 counterexample: the claim says a whitespace-only title is
rejected and that no stored title is empty after trimming.  The code
checks `not title` on the raw string before stripping, so the
whitespace-only title `" "` passes and is stored stripped — as the
empty string. -/
theorem c4_whitespace_title_counterexample :
    Task.init "2025-01-01 08:00:00" 1 " " "desc" "2025-03-01" "Highest Priorities" "Pending"
      = Except.ok ⟨1, "", "desc", "2025-03-01", "Highest priorities", "Pending",
          "2025-01-01 08:00:00"⟩
    ∧ pyStrip " " = "" := by
  decide

/-- C4 amended: construction rejects `title`/`description`/`due_date`
exactly when the raw string is empty; a successfully constructed task
therefore has raw inputs non-empty, and stores title and description
stripped — which may leave them empty when the input was
whitespace-only. -/
theorem c4_required_fields_amended :
    ∀ (now : String) (i : Int) (ti de du pr stt : String),
    ((ti = "" ∨ de = "" ∨ du = "") →
      ∃ e, Task.init now i ti de du pr stt = Except.error e)
    ∧ (∀ tk, Task.init now i ti de du pr stt = Except.ok tk →
        ti ≠ "" ∧ de ≠ "" ∧ du ≠ ""
        ∧ tk.title = pyStrip ti ∧ tk.description = pyStrip de ∧ tk.due_date = du) := by
  intro now i ti de du pr stt
  constructor
  · intro h0
    unfold Task.init
    by_cases hi : i ≤ 0
    · rw [if_pos hi]
      exact ⟨_, rfl⟩
    · rw [if_neg hi, if_pos h0]
      exact ⟨_, rfl⟩
  · intro tk h
    obtain ⟨-, h2, h3, h4, -, -, -, -, h9, h10, h11, -, -⟩ := task_init_ok h
    exact ⟨h9, h10, h11, h2, h3, h4⟩

/-- C4 amended witness at a concrete empty-title input. -/
theorem c4_required_fields_amended_witness :
    ∃ e, Task.init "2025-01-01 08:00:00" 1 "" "desc" "2025-03-01" "Highest Priorities"
      "Pending" = Except.error e :=
  (c4_required_fields_amended "2025-01-01 08:00:00" 1 "" "desc" "2025-03-01"
    "Highest Priorities" "Pending").1 (Or.inl rfl)

/-! ### C5 -/

/-- C5 counterexample: the claim says a record that fails
reconstruction aborts the entire load with a fatal `ValidationError`.
With one good record and one bad record, reconstruction does fail —
but `_load_tasks` catches the error in its generic `except Exception`
handler and recovers with an empty collection and a warning; nothing
fatal escapes (the load result is a normal state, not an error). -/
theorem c5_load_not_fatal_counterexample :
    except_is_ok (tasks_from_records "2025-06-01 12:00:00" [good_record, bad_record]) = false
    ∧ _load_tasks "2025-06-01 12:00:00" (LoadInput.parsedFile [good_record, bad_record])
      = (⟨[], 1, 0⟩, LoadOutcome.errorWarning) := by
  decide

/-- C5 amended: if any stored record fails reconstruction, the entire
load is abandoned — no partial or best-effort load of the remaining
records occurs — but the resulting `ValidationError` is caught by the
loader's catch-all handler, which recovers with an empty collection
and next id 1 and reports a warning; the load is not fatal. -/
theorem c5_load_all_or_nothing_amended :
    ∀ (now : String) (records : List TaskRecord),
    except_is_ok (tasks_from_records now records) = false →
    _load_tasks now (LoadInput.parsedFile records) = (⟨[], 1, 0⟩, LoadOutcome.errorWarning) := by
  intro now records h
  cases h' : tasks_from_records now records with
  | ok ts => rw [h'] at h; simp [except_is_ok] at h
  | error e => simp [_load_tasks, h']

/-- C5 amended witness at the concrete good-plus-bad record list. -/
theorem c5_load_all_or_nothing_amended_witness :
    _load_tasks "2025-06-01 12:00:00" (LoadInput.parsedFile [good_record, bad_record])
      = (⟨[], 1, 0⟩, LoadOutcome.errorWarning) :=
  c5_load_all_or_nothing_amended "2025-06-01 12:00:00" [good_record, bad_record] (by decide)

/-! ### C6 -/

def task_pending_jan10 : Task :=
  ⟨1, "Essay", "Write", "2025-01-10", "Highest priorities", "Pending", "2025-01-01 08:00:00"⟩

def task_completed_jan5 : Task :=
  ⟨2, "Quiz", "Study", "2025-01-05", "Highest priorities", "Completed", "2025-01-01 08:00:00"⟩

/-- With no status filter and every due date parseable, the `due_date`
branch of `view_tasks` returns the sorted Pending partition followed
by the sorted Completed partition. -/
theorem view_tasks_due_date_eq (ts : List Task)
    (hp : ∀ t ∈ ts, (parseYmd t.due_date).isSome) :
    view_tasks ts none "due_date" =
      some (sorted_by_key due_key (ts.filter (fun t => t.status == "Pending"))
            ++ sorted_by_key due_key (ts.filter (fun t => t.status == "Completed"))) := by
  have hall : ((ts.filter (fun t => t.status == "Pending"))
      ++ (ts.filter (fun t => t.status == "Completed"))).all
      (fun t => (parseYmd t.due_date).isSome) = true := by
    rw [List.all_eq_true]
    intro t ht
    rcases List.mem_append.mp ht with h1 | h1
    · exact hp t (List.mem_filter.mp h1).1
    · exact hp t (List.mem_filter.mp h1).1
  simp only [view_tasks, filtered_view]
  rw [if_pos trivial, if_pos hall]

/-- C6: sorting by due date partitions Pending before Completed, each
partition stable-ascending by parsed due date (stability stated as:
for every key value, the subsequence with that key equals the original
filtered subsequence), covering all tasks; and in particular a Pending
task due 2025-01-10 precedes a Completed task due 2025-01-05. -/
theorem c6_due_date_sort_partition :
    (∀ ts : List Task,
      (∀ t ∈ ts, t.status = "Pending" ∨ t.status = "Completed") →
      (∀ t ∈ ts, (parseYmd t.due_date).isSome) →
      ∃ p c, view_tasks ts none "due_date" = some (p ++ c)
        ∧ (∀ t ∈ p, t.status = "Pending")
        ∧ (∀ t ∈ c, t.status = "Completed")
        ∧ List.Pairwise (fun a b => due_key a ≤ due_key b) p
        ∧ List.Pairwise (fun a b => due_key a ≤ due_key b) c
        ∧ (∀ k : Nat, p.filter (fun t => due_key t == k)
            = (ts.filter (fun t => t.status == "Pending")).filter (fun t => due_key t == k))
        ∧ (∀ k : Nat, c.filter (fun t => due_key t == k)
            = (ts.filter (fun t => t.status == "Completed")).filter (fun t => due_key t == k))
        ∧ p.length + c.length = ts.length)
    ∧ view_tasks [task_completed_jan5, task_pending_jan10] none "due_date"
      = some [task_pending_jan10, task_completed_jan5] := by
  constructor
  · intro ts hst hp
    refine ⟨sorted_by_key due_key (ts.filter (fun t => t.status == "Pending")),
            sorted_by_key due_key (ts.filter (fun t => t.status == "Completed")),
            view_tasks_due_date_eq ts hp, ?_, ?_, sorted_sorted_by_key due_key _,
            sorted_sorted_by_key due_key _, fun k => filter_sorted_by_key due_key k _,
            fun k => filter_sorted_by_key due_key k _, ?_⟩
    · intro t ht
      have hmem := (perm_sorted_by_key due_key _).mem_iff.mp ht
      exact eq_of_beq (List.mem_filter.mp hmem).2
    · intro t ht
      have hmem := (perm_sorted_by_key due_key _).mem_iff.mp ht
      exact eq_of_beq (List.mem_filter.mp hmem).2
    · rw [(perm_sorted_by_key due_key _).length_eq, (perm_sorted_by_key due_key _).length_eq]
      exact length_filter_partition ts hst
  · decide

/-- C6 witness: the partition conclusion at the concrete two-task
collection from the claim. -/
theorem c6_due_date_sort_partition_witness :
    ∃ p c, view_tasks [task_completed_jan5, task_pending_jan10] none "due_date" = some (p ++ c)
      ∧ (∀ t ∈ p, t.status = "Pending")
      ∧ (∀ t ∈ c, t.status = "Completed")
      ∧ List.Pairwise (fun a b => due_key a ≤ due_key b) p
      ∧ List.Pairwise (fun a b => due_key a ≤ due_key b) c
      ∧ (∀ k : Nat, p.filter (fun t => due_key t == k)
          = (([task_completed_jan5, task_pending_jan10].filter
              (fun t => t.status == "Pending")).filter (fun t => due_key t == k)))
      ∧ (∀ k : Nat, c.filter (fun t => due_key t == k)
          = (([task_completed_jan5, task_pending_jan10].filter
              (fun t => t.status == "Completed")).filter (fun t => due_key t == k)))
      ∧ p.length + c.length = ([task_completed_jan5, task_pending_jan10] : List Task).length :=
  c6_due_date_sort_partition.1 [task_completed_jan5, task_pending_jan10]
    (by decide) (by decide)

/-! ### C8 and C10 -/

/-- The `priority` branch of `view_tasks` with no status filter. -/
theorem view_tasks_priority_eq (ts : List Task) :
    view_tasks ts none "priority"
      = some (sorted_by_key (fun t => priority_order t.priority) ts) := by
  simp [view_tasks, filtered_view]

/-- Tasks as stored objects whose `priority` attribute carries the
rank-map's canonical strings (which this program's own validation
would not produce — see C1) — the sort handles them as the claim
describes. -/
def task_low : Task :=
  ⟨1, "Alpha", "a", "2025-01-01", "Low", "Pending", "2025-01-01 08:00:00"⟩

def task_high : Task :=
  ⟨2, "Beta", "b", "2025-01-02", "High", "Pending", "2025-01-01 08:00:00"⟩

def task_med : Task :=
  ⟨3, "Gamma", "c", "2025-01-03", "Medium", "Pending", "2025-01-01 08:00:00"⟩

def task_high2 : Task :=
  ⟨4, "Delta", "d", "2025-01-04", "High", "Pending", "2025-01-01 08:00:00"⟩

/-- C8: sorting by priority is ascending in the fixed rank High=1,
Medium=2, Low=3 (stability stated as: for every rank, the subsequence
with that rank equals the original subsequence), is a permutation of
the input, sorts [Low, High, Medium] to [High, Medium, Low], and keeps
two High tasks in their original relative order. -/
theorem c8_priority_sort :
    (∀ ts : List Task, ∃ out, view_tasks ts none "priority" = some out
      ∧ List.Pairwise (fun a b => priority_order a.priority ≤ priority_order b.priority) out
      ∧ (∀ k : Nat, out.filter (fun t => priority_order t.priority == k)
          = ts.filter (fun t => priority_order t.priority == k))
      ∧ List.Perm out ts)
    ∧ view_tasks [task_low, task_high, task_med] none "priority"
      = some [task_high, task_med, task_low]
    ∧ view_tasks [task_high, task_high2, task_low] none "priority"
      = some [task_high, task_high2, task_low] := by
  refine ⟨?_, by decide, by decide⟩
  intro ts
  exact ⟨sorted_by_key (fun t => priority_order t.priority) ts, view_tasks_priority_eq ts,
    sorted_sorted_by_key _ ts, fun k => filter_sorted_by_key _ k ts, perm_sorted_by_key _ ts⟩

/-- C10: a priority other than the exact strings High/Medium/Low gets
the fallback rank 99, so in the priority sort all such tasks come
after every recognized-priority task, and among themselves keep their
original relative order (they are exactly the original subsequence of
unrecognized-priority tasks). -/
theorem c10_unrecognized_priority_fallback :
    (∀ p : String, priority_order p = 99 ↔ recognized_priority p = false)
    ∧ (∀ ts : List Task, ∃ a b, view_tasks ts none "priority" = some (a ++ b)
        ∧ (∀ t ∈ a, recognized_priority t.priority = true)
        ∧ (∀ t ∈ b, priority_order t.priority = 99)
        ∧ b = ts.filter (fun t => !(recognized_priority t.priority))) := by
  constructor
  · intro p
    constructor
    · intro h99
      have h := rank99_iff_not_recognized p
      rw [h99] at h
      simpa using h.symm
    · intro hrec
      have h := rank99_iff_not_recognized p
      rw [hrec] at h
      simpa using h
  · intro ts
    obtain ⟨a, b, hsplit, ha, hb⟩ :=
      pairwise_rank_split _ (sorted_sorted_by_key (fun t => priority_order t.priority) ts)
    refine ⟨a, b, ?_, ?_, hb, ?_⟩
    · rw [view_tasks_priority_eq ts, hsplit]
    · intro t ht
      cases hrec : recognized_priority t.priority
      · exfalso
        have h99 := rank99_iff_not_recognized t.priority
        rw [hrec] at h99
        exact ha t ht (by simpa using h99)
      · rfl
    · have hfilter := filter_sorted_by_key (fun t => priority_order t.priority) 99 ts
      rw [hsplit, List.filter_append] at hfilter
      have hafil : a.filter (fun t => priority_order t.priority == 99) = [] :=
        List.filter_eq_nil_iff.mpr (fun t ht => by simpa using ha t ht)
      have hbfil : b.filter (fun t => priority_order t.priority == 99) = b :=
        List.filter_eq_self.mpr (fun t ht => by simpa using hb t ht)
      rw [hafil, hbfil, List.nil_append] at hfilter
      rw [hfilter]
      exact List.filter_congr (fun t _ => rank99_iff_not_recognized t.priority)

/-! ### C7 -/

/-- A successful `add_task` on a valid payload: the task appended gets
id `next_id`, and `next_id` advances. -/
theorem add_task_valid (st : MState) (v : AddPayload) (hpos : 0 < st.next_id)
    (hv : valid_payload v = true) :
    run_op st (Op.addOp v)
      = ⟨st.tasks ++ [⟨st.next_id, pyStrip v.title, pyStrip v.description, v.due_date,
          pyCapitalize v.priority, "Pending", v.now⟩], st.next_id + 1, st.save_count + 1⟩ := by
  unfold valid_payload at hv
  simp only [Bool.and_eq_true, bne_iff_ne, ne_eq] at hv
  obtain ⟨⟨⟨h1, h2⟩, h3⟩, h4⟩ := hv
  have hcap : pyCapitalize "Pending" = "Pending" := by decide
  have hinit : Task.init v.now st.next_id v.title v.description v.due_date v.priority "Pending"
      = Except.ok ⟨st.next_id, pyStrip v.title, pyStrip v.description, v.due_date,
          pyCapitalize v.priority, "Pending", v.now⟩ := by
    unfold Task.init
    rw [if_neg (by omega), if_neg (by push_neg; exact ⟨h1, h2, h3⟩),
      if_neg (by simp [h4]), if_neg (by decide), hcap]
  simp [run_op, add_task, hinit, _save_tasks]

/-- Running a block of valid adds appends tasks with the consecutive
ids `next_id, next_id+1, ...` and advances `next_id` by the block
length. -/
theorem run_adds (vs : List AddPayload) : ∀ st : MState, 0 < st.next_id →
    (∀ v ∈ vs, valid_payload v = true) →
    (run_ops st (vs.map Op.addOp)).tasks.map (fun t => t.id)
        = st.tasks.map (fun t => t.id) ++ id_range st.next_id vs.length
    ∧ (run_ops st (vs.map Op.addOp)).next_id = st.next_id + vs.length := by
  induction vs with
  | nil => intro st h1 h2; simp [run_ops, id_range]
  | cons v vs ih =>
    intro st h1 h2
    have hstep := add_task_valid st v h1 (h2 v (List.mem_cons_self v vs))
    have hnext : run_ops st ((v :: vs).map Op.addOp)
        = run_ops (run_op st (Op.addOp v)) (vs.map Op.addOp) := by
      simp [run_ops]
    have hpos' : 0 < (run_op st (Op.addOp v)).next_id := by
      rw [hstep]; dsimp only; omega
    obtain ⟨ihm, ihn⟩ := ih (run_op st (Op.addOp v)) hpos'
      (fun w hw => h2 w (List.mem_cons_of_mem v hw))
    constructor
    · rw [hnext, ihm, hstep]
      dsimp only
      simp [id_range, List.map_append]
    · rw [hnext, ihn, hstep]
      dsimp only
      simp [id_range]
      omega

def payload_a : AddPayload :=
  ⟨"2025-01-01 08:00:00", "Alg", "read", "2025-01-10", "Highest Priorities"⟩

def payload_b : AddPayload :=
  ⟨"2025-01-01 08:05:00", "Bio", "revise", "2025-01-11", "Medium Priorities"⟩

def payload_c : AddPayload :=
  ⟨"2025-01-01 08:10:00", "Chem", "lab", "2025-01-12", "Lowest Priorities"⟩

def payload_d : AddPayload :=
  ⟨"2025-01-01 08:15:00", "Draw", "sketch", "2025-01-13", "highest priorities"⟩

/-- C7: in a fresh collection successful adds assign ids 1, 2, 3, ...;
`next_id` never decreases under any add or delete; every task id stays
below `next_id` (so a freed id, which was below `next_id` when it was
deleted, can never equal a later-assigned id); a successful add
assigns exactly `next_id` and advances it; the tracker is initialized
from a loaded collection as max id + 1 (or 1 when empty); and after
add, add, add, delete id 2, the next add assigns 4. -/
theorem c7_id_assignment_no_reuse :
    (∀ vs : List AddPayload, (∀ v ∈ vs, valid_payload v = true) →
      (run_ops initial_state (vs.map Op.addOp)).tasks.map (fun t => t.id)
          = id_range 1 vs.length
      ∧ (run_ops initial_state (vs.map Op.addOp)).next_id = 1 + (vs.length : Int))
    ∧ (∀ (st : MState) (op : Op), st.next_id ≤ (run_op st op).next_id)
    ∧ (∀ (st : MState) (op : Op), (∀ t ∈ st.tasks, t.id < st.next_id) →
        ∀ t ∈ (run_op st op).tasks, t.id < (run_op st op).next_id)
    ∧ (∀ (st : MState) (now ti de du pr : String) (t : Task),
        (add_task st now ti de du pr).2 = Except.ok t →
        t.id = st.next_id ∧ (add_task st now ti de du pr).1.next_id = st.next_id + 1)
    ∧ (∀ (now : String) (records : List TaskRecord) (ts : List Task),
        tasks_from_records now records = Except.ok ts →
        (_load_tasks now (LoadInput.parsedFile records)).1.next_id
          = if ts.isEmpty then 1 else max_task_id ts + 1)
    ∧ ((run_ops initial_state
          [Op.addOp payload_a, Op.addOp payload_b, Op.addOp payload_c,
           Op.delOp 2, Op.addOp payload_d]).tasks.map (fun t => t.id) = [1, 3, 4]
       ∧ (run_ops initial_state
          [Op.addOp payload_a, Op.addOp payload_b, Op.addOp payload_c,
           Op.delOp 2, Op.addOp payload_d]).next_id = 5) := by
  refine ⟨?_, ?_, ?_, ?_, ?_, by decide⟩
  · intro vs hv
    have h := run_adds vs initial_state (by decide) hv
    simpa [initial_state] using h
  · intro st op
    cases op with
    | addOp v =>
      cases h : Task.init v.now st.next_id v.title v.description v.due_date v.priority
          "Pending" with
      | ok t => simp [run_op, add_task, h, _save_tasks]
      | error e => simp [run_op, add_task, h]
    | delOp i =>
      cases h : st.tasks.find? (fun t => t.id == i) with
      | none => simp [run_op, delete_task, h]
      | some t => simp [run_op, delete_task, h, _save_tasks]
  · intro st op hinv
    cases op with
    | addOp v =>
      cases h : Task.init v.now st.next_id v.title v.description v.due_date v.priority
          "Pending" with
      | ok t =>
        intro x hx
        simp only [run_op, add_task, h, _save_tasks] at hx ⊢
        rcases List.mem_append.mp hx with hold | hnew
        · have := hinv x hold
          omega
        · have hid := (task_init_ok h).1
          rcases List.mem_singleton.mp hnew with rfl
          omega
      | error e =>
        intro x hx
        simp only [run_op, add_task, h] at hx ⊢
        exact hinv x hx
    | delOp i =>
      cases h : st.tasks.find? (fun t => t.id == i) with
      | none =>
        intro x hx
        simp only [run_op, delete_task, h] at hx ⊢
        exact hinv x hx
      | some t =>
        intro x hx
        simp only [run_op, delete_task, h, _save_tasks] at hx ⊢
        exact hinv x (List.mem_of_mem_filter hx)
  · intro st now ti de du pr t h
    cases h' : Task.init now st.next_id ti de du pr "Pending" with
    | ok t' =>
      simp only [add_task, h'] at h ⊢
      cases h
      exact ⟨(task_init_ok h').1, rfl⟩
    | error e => simp [add_task, h'] at h
  · intro now records ts h
    by_cases he : ts.isEmpty <;> simp [_load_tasks, h, he]

/-- C7 witness: a single valid add in a fresh collection assigns id 1
and advances the tracker to 2. -/
theorem c7_id_assignment_no_reuse_witness :
    (run_ops initial_state ([payload_a].map Op.addOp)).tasks.map (fun t => t.id)
        = id_range 1 ([payload_a] : List AddPayload).length
    ∧ (run_ops initial_state ([payload_a].map Op.addOp)).next_id
        = 1 + (([payload_a] : List AddPayload).length : Int) :=
  c7_id_assignment_no_reuse.1 [payload_a] (by decide)

/-! ### C9 -/

/-- C9: for a task id present in the collection, updating to the
current status reports the no-op and returns the state untouched (in
particular no save); updating to a different status reports `updated`,
bumps the save counter by one, and rewrites exactly the found task's
status, leaving every other task and the id tracker unchanged. -/
theorem c9_update_status_frame :
    ∀ (st : MState) (task_id : Int) (t : Task) (ns : String),
    st.tasks.find? (fun x => x.id == task_id) = some t →
    ((pyCapitalize ns = t.status →
        update_task_status st task_id ns = (st, UpdResult.alreadyStatus))
     ∧ (pyCapitalize ns ≠ t.status →
        (update_task_status st task_id ns).2 = UpdResult.updated
        ∧ (update_task_status st task_id ns).1.save_count = st.save_count + 1
        ∧ (update_task_status st task_id ns).1.next_id = st.next_id
        ∧ ∃ pre post, st.tasks = pre ++ t :: post
            ∧ (∀ x ∈ pre, ¬(x.id = task_id))
            ∧ (update_task_status st task_id ns).1.tasks
                = pre ++ { t with status := pyCapitalize ns } :: post)) := by
  intro st ti t ns hfind
  have hup : update_task_status st ti ns
      = if t.status = pyCapitalize ns then (st, UpdResult.alreadyStatus)
        else (_save_tasks { st with tasks := set_status_first st.tasks ti (pyCapitalize ns) },
              UpdResult.updated) := by
    simp [update_task_status, hfind]
  constructor
  · intro heq
    rw [hup, if_pos heq.symm]
  · intro hne
    rw [hup, if_neg (fun hh => hne hh.symm)]
    obtain ⟨pre, post, hdecomp, hpre, hmatch⟩ := find?_decomp hfind
    have htid : t.id = ti := by simpa using hmatch
    refine ⟨rfl, rfl, rfl, pre, post, hdecomp, ?_, ?_⟩
    · intro x hx
      simpa using hpre x hx
    · show set_status_first st.tasks ti (pyCapitalize ns)
        = pre ++ { t with status := pyCapitalize ns } :: post
      rw [hdecomp]
      exact set_status_first_append htid pre post (fun x hx => by simpa using hpre x hx)

/-- A one-task manager state for the C9 witness. -/
def st_one : MState := ⟨[task_pending_jan10], 2, 0⟩

/-- C9 witness: same-status update is a no-op on the concrete state;
different-status update reports `updated`. -/
theorem c9_update_status_frame_witness :
    update_task_status st_one 1 "pending" = (st_one, UpdResult.alreadyStatus)
    ∧ (update_task_status st_one 1 "Completed").2 = UpdResult.updated := by
  have h := c9_update_status_frame st_one 1 task_pending_jan10 "pending" (by decide)
  have h2 := c9_update_status_frame st_one 1 task_pending_jan10 "Completed" (by decide)
  exact ⟨h.1 (by decide), (h2.2 (by decide)).1⟩

end App
